import Mathlib

/-!
Shallow embedding of the toggl-asana synchronization script (the
workspace-wide variant: `loadSyncState`, `saveSyncState`,
`getAsanaTimeEntries`, `syncTogglToAsana`).  Remote HTTP services are
abstracted as oracle functions in an `Env` record; the side effects the
specification talks about (resolution calls, duplicate-detection fetches,
creation requests, the final persist) are recorded in an event trace.
JavaScript truthiness and `Math.round` semantics are modelled explicitly:
a missing numeric value (JS `undefined`, and the `NaN` it induces) is
`Option.none`, and `Math.round` on a non-negative rational `s / 60` is
`(s + 30) / 60` in natural division (round half up).
-/

/-- A flattened Toggl time entry, as produced by `getWorkspaceTimeEntries`:
leaf fields `id`, `seconds` / `duration`, `start` plus the group-level
fields copied onto it (`task_id`, `project_id`, `user_id`). -/
structure TimeEntry where
  id : Nat
  task_id : Option Nat
  project_id : Nat
  user_id : Option Nat
  seconds : Option Nat
  duration : Option Nat
  start : String
deriving DecidableEq, Repr

/-- An existing Asana time-tracking entry, attributes consumed by the
duplicate check: `entered_on` and `duration_minutes`. -/
structure AsanaEntry where
  entered_on : String
  duration_minutes : Nat
deriving DecidableEq, Repr

/-- A Toggl task detail record as consumed by the orchestrator:
`integration_provider`, `integration_ext_id`, `name`. -/
structure TogglTask where
  integration_provider : String
  integration_ext_id : String
  name : String
deriving DecidableEq, Repr

/-- One ledger record, as written into `syncState[entry.id]`.  The
`already_existed` field is absent in the creation branch of the code;
absence is modelled as `false`.  `user_id` is written only in the
creation branch; absence is `none`.  `duration_minutes` is `none` when
the JS computation produced `NaN` (neither duration field present). -/
structure LedgerRecord where
  synced_at : String
  asana_task_gid : String
  duration_minutes : Option Nat
  entered_on : String
  already_existed : Bool
  user_id : Option Nat
deriving DecidableEq, Repr

/-- The sync-state ledger: a keyed mapping from Toggl entry id to its
ledger record, modelled as an association list (JS object). -/
abbrev Ledger := List (Nat × LedgerRecord)

/-- Lookup in the ledger (JS `syncState[id]`, `undefined` mapped to none). -/
def lfind : Ledger → Nat → Option LedgerRecord
  | [], _ => none
  | (k, r) :: rest, i => if k = i then some r else lfind rest i

/-- Upsert into the ledger (JS `syncState[id] = record`). -/
def linsert : Ledger → Nat → LedgerRecord → Ledger
  | [], i, r => [(i, r)]
  | (k, r0) :: rest, i, r => if k = i then (i, r) :: rest else (k, r0) :: linsert rest i r

/-- Association-list lookup keyed by Nat (the `togglTaskCache` Map). -/
def lookupNat : List (Nat × TogglTask) → Nat → Option TogglTask
  | [], _ => none
  | (k, t) :: rest, i => if k = i then some t else lookupNat rest i

/-- Association-list lookup keyed by String (the `asanaTaskCache` Map). -/
def lookupStr : List (String × List AsanaEntry) → String → Option (List AsanaEntry)
  | [], _ => none
  | (k, l) :: rest, g => if k = g then some l else lookupStr rest g

/-- Observable remote-interaction events of one run. -/
inductive Ev where
  | resolveCall (taskId : Nat)
  | dupFetchCall (gid : String)
  | createCall (entryId : Nat) (gid : String) (durationMinutes : Option Nat) (enteredOn : String)
  | persistEv (state : Ledger)
deriving DecidableEq, Repr

/-- The environment of one run: the two remote oracles, the creation
outcome per entry id (whether the POST for that entry fails), and the
clock value used for `synced_at`. -/
structure Env where
  togglTaskOf : Nat → Nat → Except String TogglTask
  asanaEntriesOf : String → Except String (List AsanaEntry)
  createFails : Nat → Bool
  now : String

/-- JS `entry.seconds || entry.duration`: `seconds` when present and
nonzero (truthy), otherwise whatever `duration` holds; `none` models the
JS `undefined` that turns into `NaN` downstream. -/
def jsRawDuration (e : TimeEntry) : Option Nat :=
  match e.seconds with
  | some s => if s = 0 then e.duration else some s
  | none => e.duration

/-- JS `Math.round((entry.seconds || entry.duration) / 60)`; `none` is
the `NaN` produced when neither field is present.  For a non-negative
integer s, `Math.round(s / 60) = (s + 30) / 60` in natural division. -/
def jsDurationMinutes (e : TimeEntry) : Option Nat :=
  (jsRawDuration e).map (fun s => (s + 30) / 60)

/-- Characters before the first occurrence of the separator char T. -/
def takeUntilSep : List Char → List Char
  | [] => []
  | c :: rest => if c = 'T' then [] else c :: takeUntilSep rest

/-- JS `entry.start.split("T")[0]`: the prefix of the timestamp before
the first T, or the whole string when no T occurs. -/
def jsEnteredOn (s : String) : String :=
  String.mk (takeUntilSep s.data)

/-- The duplicate test `existingEntries.some(...)`: same `entered_on`
and same `duration_minutes`.  A `none` (NaN) candidate duration compares
unequal to every number, as in JS. -/
def matchesExisting (existing : List AsanaEntry) (don : String) (dm : Option Nat) : Bool :=
  existing.any fun r =>
    r.entered_on = don && match dm with
      | some m => r.duration_minutes = m
      | none => false

/-- JS truthiness filter `entry.task_id`: present and nonzero. -/
def hasTask (e : TimeEntry) : Bool :=
  match e.task_id with
  | some t => t != 0
  | none => false

/-- The task id of an entry that passed the `hasTask` filter. -/
def theTaskId (e : TimeEntry) : Nat :=
  e.task_id.getD 0

/-- One step of the grouping loop: append the entry to its task group,
creating the group at the end on first sight (Map insertion order). -/
def addToGroup : List (Nat × List TimeEntry) → Nat → TimeEntry → List (Nat × List TimeEntry)
  | [], k, e => [(k, [e])]
  | (k0, l) :: rest, k, e =>
    if k0 = k then (k0, l ++ [e]) :: rest else (k0, l) :: addToGroup rest k e

/-- The grouping loop over the filtered entries (the `taskMap`). -/
def groupByTask (es : List TimeEntry) : List (Nat × List TimeEntry) :=
  es.foldl (fun m e => addToGroup m (theTaskId e) e) []

/-- `entries[0].project_id` of a task group. -/
def headPid (l : List TimeEntry) : Nat :=
  ((l.head?).map TimeEntry.project_id).getD 0

/-- `loadSyncState`: read the state file and parse it; any failure of
either step is caught and yields the empty mapping.  The read result and
the parser stand for `fs.readFile` and `JSON.parse`. -/
def loadSyncState (readRes : Except String String) (parse : String → Except String Ledger) : Ledger :=
  match readRes with
  | .error _ => []
  | .ok s =>
    match parse s with
    | .ok l => l
    | .error _ => []

/-- Accumulated state of one run of `syncTogglToAsana`. -/
structure RunState where
  ledger : Ledger
  togglTaskCache : List (Nat × TogglTask)
  asanaCache : List (String × List AsanaEntry)
  synced : Nat
  skipped : Nat
  alreadySynced : Nat
  trace : List Ev
  errors : List Nat
deriving DecidableEq, Repr

/-- The initial run state over a loaded ledger: empty caches, zero
counters, empty trace. -/
def initState (led : Ledger) : RunState :=
  { ledger := led, togglTaskCache := [], asanaCache := [],
    synced := 0, skipped := 0, alreadySynced := 0, trace := [], errors := [] }

/-- `getAsanaTimeEntries`: cache hit returns the cached list with no
remote call; otherwise the fetch is issued, a failure is caught, logged
and cached as the empty list.  Returns the entry list, the updated
cache, and the emitted fetch events. -/
def getAsanaTimeEntries (env : Env) (cache : List (String × List AsanaEntry)) (gid : String) :
    List AsanaEntry × List (String × List AsanaEntry) × List Ev :=
  match lookupStr cache gid with
  | some l => (l, cache, [])
  | none =>
    match env.asanaEntriesOf gid with
    | .ok l => (l, cache ++ [(gid, l)], [Ev.dupFetchCall gid])
    | .error _ => ([], cache ++ [(gid, [])], [Ev.dupFetchCall gid])

/-- Task resolution with the per-run cache: cache hit issues no call;
a miss issues the Toggl request, caches a success, and reports a failure
as `none` (the thrown error, caught at the task boundary). -/
def resolveTask (env : Env) (cache : List (Nat × TogglTask)) (taskId pid : Nat) :
    Option TogglTask × List (Nat × TogglTask) × List Ev :=
  match lookupNat cache taskId with
  | some t => (some t, cache, [])
  | none =>
    match env.togglTaskOf pid taskId with
    | .ok t => (some t, cache ++ [(taskId, t)], [Ev.resolveCall taskId])
    | .error _ => (none, cache, [Ev.resolveCall taskId])

/-- The body of the per-entry loop: compute `durationMinutes` and
`enteredOn`, suppress and ledger as already existing on a duplicate
match, otherwise issue the creation call; a failed call leaves no
ledger record and aborts the task (flag `false`). -/
def processEntry (env : Env) (gid : String) (existing : List AsanaEntry)
    (st : RunState) (e : TimeEntry) : RunState × Bool :=
  let dm := jsDurationMinutes e
  let don := jsEnteredOn e.start
  if matchesExisting existing don dm then
    let rc : LedgerRecord :=
      { synced_at := env.now, asana_task_gid := gid, duration_minutes := dm,
        entered_on := don, already_existed := true, user_id := none }
    ({ st with ledger := linsert st.ledger e.id rc }, true)
  else
    let st1 := { st with trace := st.trace ++ [Ev.createCall e.id gid dm don] }
    if env.createFails e.id then (st1, false)
    else
      let rc : LedgerRecord :=
        { synced_at := env.now, asana_task_gid := gid, duration_minutes := dm,
          entered_on := don, already_existed := false, user_id := e.user_id }
      ({ st1 with ledger := linsert st1.ledger e.id rc }, true)

/-- The per-entry loop over `entriesToSync`, stopping at the first
failed creation call (the thrown error propagates to the task catch). -/
def processEntries (env : Env) (gid : String) (existing : List AsanaEntry)
    (st : RunState) : List TimeEntry → RunState × Bool
  | [] => (st, true)
  | e :: rest =>
    let p := processEntry env gid existing st e
    if p.2 then processEntries env gid existing p.1 rest else (p.1, false)

/-- Processing of one task group inside the run loop, including the
try/catch at the task boundary: resolution, the provider check, the
already-ledgered filter, the single duplicate-detection fetch, the
per-entry loop, and the counter updates. -/
def processTask (env : Env) (st : RunState) (g : Nat × List TimeEntry) : RunState :=
  let r := resolveTask env st.togglTaskCache g.1 (headPid g.2)
  let st1 := { st with togglTaskCache := r.2.1, trace := st.trace ++ r.2.2 }
  match r.1 with
  | none => { st1 with errors := st1.errors ++ [g.1] }
  | some t =>
    if t.integration_provider = "asana" then
      let gid := t.integration_ext_id
      let entriesToSync := g.2.filter fun e => (lfind st1.ledger e.id).isNone
      if entriesToSync.isEmpty then
        { st1 with alreadySynced := st1.alreadySynced + 1 }
      else
        let f := getAsanaTimeEntries env st1.asanaCache gid
        let st2 := { st1 with asanaCache := f.2.1, trace := st1.trace ++ f.2.2 }
        let p := processEntries env gid f.1 st2 entriesToSync
        if p.2 then { p.1 with synced := p.1.synced + 1 }
        else { p.1 with errors := p.1.errors ++ [g.1] }
    else
      { st1 with skipped := st1.skipped + 1 }

/-- One full run of `syncTogglToAsana` over an already fetched entry
list: filter to entries with tasks, group by task, walk the task groups,
then persist the ledger exactly once at the end. -/
def runSync (env : Env) (led : Ledger) (entries : List TimeEntry) : RunState :=
  let groups := groupByTask (entries.filter hasTask)
  let st := groups.foldl (processTask env) (initState led)
  { st with trace := st.trace ++ [Ev.persistEv st.ledger] }

/-- Recognizer for creation events. -/
def isCreate : Ev → Bool
  | .createCall _ _ _ _ => true
  | _ => false

/-- Recognizer for persist events. -/
def isPersist : Ev → Bool
  | .persistEv _ => true
  | _ => false

/-- Number of creation requests issued for a given entry id in a trace. -/
def createsFor (tr : List Ev) (i : Nat) : Nat :=
  tr.countP fun ev =>
    match ev with
    | .createCall j _ _ _ => j = i
    | _ => false

/-- Number of creation requests in a trace carrying a given target task
gid, duration and date (the payload of the POST). -/
def countCreatesKey (tr : List Ev) (gid : String) (dm : Option Nat) (don : String) : Nat :=
  tr.countP fun ev =>
    match ev with
    | .createCall _ g m d => g = gid && m = dm && d = don
    | _ => false

/-- The creation event a non-duplicate entry gives rise to, `none` for a
suppressed duplicate: the per-entry loop emits exactly these, in order. -/
def createEventOf (gid : String) (ex : List AsanaEntry) (e : TimeEntry) : Option Ev :=
  if matchesExisting ex (jsEnteredOn e.start) (jsDurationMinutes e) then none
  else some (Ev.createCall e.id gid (jsDurationMinutes e) (jsEnteredOn e.start))

/-- Fixture: a linked Asana task descriptor. -/
def fixTask : TogglTask :=
  { integration_provider := "asana", integration_ext_id := "1201234567890123", name := "Fix bug" }

/-- Fixture: an environment where every remote call succeeds, the task
resolves to the Asana provider, and the task has no existing entries. -/
def fixEnvOk : Env :=
  { togglTaskOf := fun _ _ => Except.ok fixTask,
    asanaEntriesOf := fun _ => Except.ok [],
    createFails := fun _ => false,
    now := "2026-02-03T00:00:00.000Z" }

/-- Fixture: like fixEnvOk but every creation POST fails persistently. -/
def fixEnvCreateFail : Env :=
  { fixEnvOk with createFails := fun _ => true }

/-- Fixture: like fixEnvOk but the task already holds a 60-minute entry
on 2026-02-01. -/
def fixEnvDup : Env :=
  { fixEnvOk with
    asanaEntriesOf := fun _ => Except.ok [{ entered_on := "2026-02-01", duration_minutes := 60 }] }

/-- Fixture: like fixEnvOk but the duplicate-detection fetch fails. -/
def fixEnvAsanaFail : Env :=
  { fixEnvOk with asanaEntriesOf := fun _ => Except.error "Asana API error: 500" }

/-- Fixture: resolution fails for Toggl task 5, succeeds otherwise. -/
def fixEnvC5 : Env :=
  { fixEnvOk with
    togglTaskOf := fun _ tid => if tid = 5 then Except.error "Toggl API error: 404"
      else Except.ok fixTask }

/-- Fixture: a one-hour entry on task 5. -/
def fixEntry : TimeEntry :=
  { id := 11, task_id := some 5, project_id := 2, user_id := some 3,
    seconds := some 3600, duration := none, start := "2026-02-01T10:00:00Z" }

/-- Fixture: a 30-second entry. -/
def fixEntry30 : TimeEntry :=
  { fixEntry with id := 12, seconds := some 30 }

/-- Fixture: an 89-second entry. -/
def fixEntry89 : TimeEntry :=
  { fixEntry with id := 13, seconds := some 89 }

/-- Fixture: seconds present but zero, duration 1800. -/
def fixEntryBoth0 : TimeEntry :=
  { fixEntry with id := 14, seconds := some 0, duration := some 1800 }

/-- Fixture: neither duration field present. -/
def fixEntryNeither : TimeEntry :=
  { fixEntry with id := 15, seconds := none, duration := none }

/-- Fixture: an entry on the failing task 5 of fixEnvC5. -/
def fixEntryA : TimeEntry :=
  { fixEntry with id := 21, task_id := some 5 }

/-- Fixture: an entry on the succeeding task 6 of fixEnvC5. -/
def fixEntryB : TimeEntry :=
  { fixEntry with id := 22, task_id := some 6 }

/-- Fixture: a second entry with the same date and duration as fixEntry. -/
def fixEntry16 : TimeEntry :=
  { fixEntry with id := 16 }

/-- Fixture: a non-Asana linked task. -/
def fixTaskJira : TogglTask :=
  { integration_provider := "jira", integration_ext_id := "JIRA-1", name := "Jira task" }

/-- Fixture: like fixEnvOk but the task resolves to a non-Asana provider. -/
def fixEnvJira : Env :=
  { fixEnvOk with togglTaskOf := fun _ _ => Except.ok fixTaskJira }

/-- Fixture: a ledger record for witnesses. -/
def fixRecord : LedgerRecord :=
  { synced_at := "2026-02-02T00:00:00.000Z", asana_task_gid := "1201234567890123",
    duration_minutes := some 60, entered_on := "2026-02-01", already_existed := false,
    user_id := some 3 }

/-- Fixture: one existing remote entry of 60 minutes on 2026-02-01. -/
def fixExisting : List AsanaEntry :=
  [{ entered_on := "2026-02-01", duration_minutes := 60 }]

/-! ### Basic ledger lemmas -/

theorem lfind_linsert_self (l : Ledger) (i : Nat) (r : LedgerRecord) :
    lfind (linsert l i r) i = some r := by
  induction l with
  | nil => simp [linsert, lfind]
  | cons hd tl ih =>
    obtain ⟨k, r0⟩ := hd
    by_cases h : k = i
    · simp [linsert, lfind, h]
    · simp [linsert, lfind, h, ih]

theorem lfind_linsert_ne (l : Ledger) (i k : Nat) (r : LedgerRecord) (h : i ≠ k) :
    lfind (linsert l i r) k = lfind l k := by
  induction l with
  | nil => simp [linsert, lfind, h]
  | cons hd tl ih =>
    obtain ⟨k0, r0⟩ := hd
    by_cases h0 : k0 = i
    · subst h0
      simp [linsert, lfind, h]
    · simp [linsert, lfind, h0, ih]

theorem isSome_lfind_linsert (l : Ledger) (i k : Nat) (r : LedgerRecord)
    (h : (lfind l k).isSome) : (lfind (linsert l i r) k).isSome := by
  by_cases hik : i = k
  · subst hik
    simp [lfind_linsert_self]
  · rw [lfind_linsert_ne l i k r hik]
    exact h

/-! ### processEntry lemmas -/

theorem processEntry_frame (env : Env) (gid : String) (ex : List AsanaEntry)
    (st : RunState) (e : TimeEntry) :
    (processEntry env gid ex st e).1.togglTaskCache = st.togglTaskCache ∧
    (processEntry env gid ex st e).1.asanaCache = st.asanaCache ∧
    (processEntry env gid ex st e).1.errors = st.errors ∧
    (processEntry env gid ex st e).1.synced = st.synced ∧
    (processEntry env gid ex st e).1.skipped = st.skipped ∧
    (processEntry env gid ex st e).1.alreadySynced = st.alreadySynced := by
  unfold processEntry
  by_cases hm : matchesExisting ex (jsEnteredOn e.start) (jsDurationMinutes e)
  · simp [hm]
  · by_cases hc : env.createFails e.id <;> simp [hm, hc]

theorem processEntry_ledger_mono (env : Env) (gid : String) (ex : List AsanaEntry)
    (st : RunState) (e : TimeEntry) (k : Nat) (h : (lfind st.ledger k).isSome) :
    (lfind (processEntry env gid ex st e).1.ledger k).isSome := by
  unfold processEntry
  by_cases hm : matchesExisting ex (jsEnteredOn e.start) (jsDurationMinutes e)
  · simpa [hm] using isSome_lfind_linsert _ _ _ _ h
  · by_cases hc : env.createFails e.id
    · simpa [hm, hc] using h
    · simpa [hm, hc] using isSome_lfind_linsert _ _ _ _ h

theorem processEntry_trace (env : Env) (gid : String) (ex : List AsanaEntry)
    (st : RunState) (e : TimeEntry) :
    (processEntry env gid ex st e).1.trace = st.trace ∨
    (processEntry env gid ex st e).1.trace =
      st.trace ++ [Ev.createCall e.id gid (jsDurationMinutes e) (jsEnteredOn e.start)] := by
  unfold processEntry
  by_cases hm : matchesExisting ex (jsEnteredOn e.start) (jsDurationMinutes e)
  · left
    simp [hm]
  · right
    by_cases hc : env.createFails e.id <;> simp [hm, hc]

theorem processEntry_true_ledgers (env : Env) (gid : String) (ex : List AsanaEntry)
    (st : RunState) (e : TimeEntry) (h : (processEntry env gid ex st e).2 = true) :
    (lfind (processEntry env gid ex st e).1.ledger e.id).isSome := by
  unfold processEntry at h ⊢
  by_cases hm : matchesExisting ex (jsEnteredOn e.start) (jsDurationMinutes e)
  · simp [hm, lfind_linsert_self]
  · by_cases hc : env.createFails e.id
    · simp [hm, hc] at h
    · simp [hm, hc, lfind_linsert_self]

theorem processEntry_false_fails (env : Env) (gid : String) (ex : List AsanaEntry)
    (st : RunState) (e : TimeEntry) (h : (processEntry env gid ex st e).2 = false) :
    env.createFails e.id = true := by
  unfold processEntry at h
  by_cases hm : matchesExisting ex (jsEnteredOn e.start) (jsDurationMinutes e)
  · simp [hm] at h
  · by_cases hc : env.createFails e.id
    · exact hc
    · simp [hm, hc] at h

/-! ### processEntries lemmas -/

theorem processEntries_frame (env : Env) (gid : String) (ex : List AsanaEntry) :
    ∀ (es : List TimeEntry) (st : RunState),
    (processEntries env gid ex st es).1.togglTaskCache = st.togglTaskCache ∧
    (processEntries env gid ex st es).1.asanaCache = st.asanaCache ∧
    (processEntries env gid ex st es).1.errors = st.errors ∧
    (processEntries env gid ex st es).1.synced = st.synced ∧
    (processEntries env gid ex st es).1.skipped = st.skipped ∧
    (processEntries env gid ex st es).1.alreadySynced = st.alreadySynced := by
  intro es
  induction es with
  | nil => intro st; simp [processEntries]
  | cons e rest ih =>
    intro st
    have hf := processEntry_frame env gid ex st e
    by_cases hp : (processEntry env gid ex st e).2 = true
    · have hih := ih (processEntry env gid ex st e).1
      simp only [processEntries, hp, if_true]
      exact ⟨hih.1.trans hf.1, hih.2.1.trans hf.2.1, hih.2.2.1.trans hf.2.2.1,
             hih.2.2.2.1.trans hf.2.2.2.1, hih.2.2.2.2.1.trans hf.2.2.2.2.1,
             hih.2.2.2.2.2.trans hf.2.2.2.2.2⟩
    · simp only [processEntries, hp, if_false]
      exact hf

theorem processEntries_ledger_mono (env : Env) (gid : String) (ex : List AsanaEntry) :
    ∀ (es : List TimeEntry) (st : RunState) (k : Nat),
    (lfind st.ledger k).isSome → (lfind (processEntries env gid ex st es).1.ledger k).isSome := by
  intro es
  induction es with
  | nil => intro st k h; simpa [processEntries] using h
  | cons e rest ih =>
    intro st k h
    have h1 := processEntry_ledger_mono env gid ex st e k h
    by_cases hp : (processEntry env gid ex st e).2 = true
    · simp only [processEntries, hp, if_true]
      exact ih (processEntry env gid ex st e).1 k h1
    · simpa only [processEntries, hp, if_false] using h1

theorem processEntries_true_ledgers (env : Env) (gid : String) (ex : List AsanaEntry) :
    ∀ (es : List TimeEntry) (st : RunState),
    (processEntries env gid ex st es).2 = true →
    ∀ e ∈ es, (lfind (processEntries env gid ex st es).1.ledger e.id).isSome := by
  intro es
  induction es with
  | nil => intro st _ e he; cases he
  | cons e0 rest ih =>
    intro st hok e he
    by_cases hp : (processEntry env gid ex st e0).2 = true
    · simp only [processEntries, hp, if_true] at hok ⊢
      rcases List.mem_cons.mp he with rfl | hmem
      · exact processEntries_ledger_mono env gid ex rest _ e.id
          (processEntry_true_ledgers env gid ex st e hp)
      · exact ih _ hok e hmem
    · simp only [processEntries, hp, if_false] at hok
      cases hok

theorem processEntries_false_fails (env : Env) (gid : String) (ex : List AsanaEntry) :
    ∀ (es : List TimeEntry) (st : RunState),
    (processEntries env gid ex st es).2 = false →
    ∃ e ∈ es, env.createFails e.id = true := by
  intro es
  induction es with
  | nil => intro st h; simp [processEntries] at h
  | cons e0 rest ih =>
    intro st h
    by_cases hp : (processEntry env gid ex st e0).2 = true
    · simp only [processEntries, hp, if_true] at h
      obtain ⟨e, hmem, hf⟩ := ih _ h
      exact ⟨e, List.mem_cons_of_mem _ hmem, hf⟩
    · refine ⟨e0, List.mem_cons_self _ _, ?_⟩
      exact processEntry_false_fails env gid ex st e0 (by simpa using hp)

theorem processEntries_trace (env : Env) (gid : String) (ex : List AsanaEntry) :
    ∀ (es : List TimeEntry) (st : RunState),
    ∃ d, (processEntries env gid ex st es).1.trace = st.trace ++ d ∧
      ∀ ev ∈ d, ∃ e, e ∈ es ∧
        ev = Ev.createCall e.id gid (jsDurationMinutes e) (jsEnteredOn e.start) := by
  intro es
  induction es with
  | nil => intro st; exact ⟨[], by simp [processEntries], by simp⟩
  | cons e0 rest ih =>
    intro st
    have htr := processEntry_trace env gid ex st e0
    by_cases hp : (processEntry env gid ex st e0).2 = true
    · obtain ⟨d, hd, hall⟩ := ih (processEntry env gid ex st e0).1
      cases htr with
      | inl h0 =>
        refine ⟨d, ?_, ?_⟩
        · simp only [processEntries, hp, if_true, hd, h0]
        · intro ev hev
          obtain ⟨e, hmem, rfl⟩ := hall ev hev
          exact ⟨e, List.mem_cons_of_mem _ hmem, rfl⟩
      | inr h0 =>
        refine ⟨Ev.createCall e0.id gid (jsDurationMinutes e0) (jsEnteredOn e0.start) :: d, ?_, ?_⟩
        · simp only [processEntries, hp, if_true, hd, h0, List.append_assoc,
            List.singleton_append]
        · intro ev hev
          rcases List.mem_cons.mp hev with rfl | hmem
          · exact ⟨e0, List.mem_cons_self _ _, rfl⟩
          · obtain ⟨e, hmem2, rfl⟩ := hall ev hmem
            exact ⟨e, List.mem_cons_of_mem _ hmem2, rfl⟩
    · cases htr with
      | inl h0 =>
        refine ⟨[], ?_, by simp⟩
        simp [processEntries, hp, h0]
      | inr h0 =>
        refine ⟨[Ev.createCall e0.id gid (jsDurationMinutes e0) (jsEnteredOn e0.start)], ?_, ?_⟩
        · simp [processEntries, hp, h0]
        · intro ev hev
          rcases List.mem_singleton.mp hev with rfl
          exact ⟨e0, List.mem_cons_self _ _, rfl⟩

theorem processEntries_trace_eq (env : Env) (gid : String) (ex : List AsanaEntry) :
    ∀ (es : List TimeEntry) (st : RunState),
    (∀ e ∈ es, env.createFails e.id = false) →
    (processEntries env gid ex st es).1.trace = st.trace ++ es.filterMap (createEventOf gid ex) ∧
    (processEntries env gid ex st es).2 = true := by
  intro es
  induction es with
  | nil => intro st _; simp [processEntries]
  | cons e0 rest ih =>
    intro st hok
    have hc : env.createFails e0.id = false := hok e0 (List.mem_cons_self _ _)
    by_cases hm : matchesExisting ex (jsEnteredOn e0.start) (jsDurationMinutes e0)
    · have hp : (processEntry env gid ex st e0).2 = true := by
        unfold processEntry
        simp [hm]
      have hpt : (processEntry env gid ex st e0).1.trace = st.trace := by
        unfold processEntry
        simp [hm]
      obtain ⟨ht, hf⟩ := ih (processEntry env gid ex st e0).1
        (fun e he => hok e (List.mem_cons_of_mem _ he))
      constructor
      · simp only [processEntries, hp, if_true, ht, hpt]
        simp [List.filterMap_cons, createEventOf, hm]
      · simp only [processEntries, hp, if_true, hf]
    · have hp : (processEntry env gid ex st e0).2 = true := by
        unfold processEntry
        simp [hm, hc]
      have hpt : (processEntry env gid ex st e0).1.trace =
          st.trace ++ [Ev.createCall e0.id gid (jsDurationMinutes e0) (jsEnteredOn e0.start)] := by
        unfold processEntry
        simp [hm, hc]
      obtain ⟨ht, hf⟩ := ih (processEntry env gid ex st e0).1
        (fun e he => hok e (List.mem_cons_of_mem _ he))
      constructor
      · simp only [processEntries, hp, if_true, ht, hpt]
        simp [List.filterMap_cons, createEventOf, hm]
      · simp only [processEntries, hp, if_true, hf]

theorem processEntries_togglCache (env : Env) (gid : String) (ex : List AsanaEntry)
    (es : List TimeEntry) (st : RunState) :
    (processEntries env gid ex st es).1.togglTaskCache = st.togglTaskCache :=
  (processEntries_frame env gid ex es st).1

theorem processEntries_asanaCache (env : Env) (gid : String) (ex : List AsanaEntry)
    (es : List TimeEntry) (st : RunState) :
    (processEntries env gid ex st es).1.asanaCache = st.asanaCache :=
  (processEntries_frame env gid ex es st).2.1

theorem processEntries_errors (env : Env) (gid : String) (ex : List AsanaEntry)
    (es : List TimeEntry) (st : RunState) :
    (processEntries env gid ex st es).1.errors = st.errors :=
  (processEntries_frame env gid ex es st).2.2.1

theorem processEntries_synced (env : Env) (gid : String) (ex : List AsanaEntry)
    (es : List TimeEntry) (st : RunState) :
    (processEntries env gid ex st es).1.synced = st.synced :=
  (processEntries_frame env gid ex es st).2.2.2.1

theorem processEntries_skipped (env : Env) (gid : String) (ex : List AsanaEntry)
    (es : List TimeEntry) (st : RunState) :
    (processEntries env gid ex st es).1.skipped = st.skipped :=
  (processEntries_frame env gid ex es st).2.2.2.2.1

theorem processEntries_alreadySynced (env : Env) (gid : String) (ex : List AsanaEntry)
    (es : List TimeEntry) (st : RunState) :
    (processEntries env gid ex st es).1.alreadySynced = st.alreadySynced :=
  (processEntries_frame env gid ex es st).2.2.2.2.2

theorem append_singleton_ne (l : List Nat) (x : Nat) : l ++ [x] ≠ l := by
  intro h
  have := congrArg List.length h
  simp at this

/-! ### resolveTask and getAsanaTimeEntries lemmas -/

theorem resolveTask_evs (env : Env) (cache : List (Nat × TogglTask)) (tid pid : Nat) :
    (resolveTask env cache tid pid).2.2 = [] ∨
    (resolveTask env cache tid pid).2.2 = [Ev.resolveCall tid] := by
  unfold resolveTask
  rcases lookupNat cache tid with _ | t
  · rcases env.togglTaskOf pid tid with m | t <;> simp
  · simp

theorem getAsanaTimeEntries_evs (env : Env) (cache : List (String × List AsanaEntry))
    (gid : String) :
    (getAsanaTimeEntries env cache gid).2.2 = [] ∨
    (getAsanaTimeEntries env cache gid).2.2 = [Ev.dupFetchCall gid] := by
  unfold getAsanaTimeEntries
  rcases lookupStr cache gid with _ | l
  · rcases env.asanaEntriesOf gid with m | l <;> simp
  · simp

/-! ### processTask lemmas -/

theorem processTask_cache (env : Env) (st : RunState) (g : Nat × List TimeEntry) :
    (processTask env st g).togglTaskCache =
      (resolveTask env st.togglTaskCache g.1 (headPid g.2)).2.1 := by
  rcases hres : resolveTask env st.togglTaskCache g.1 (headPid g.2) with ⟨ρ, c1, evs⟩
  cases ρ with
  | none => simp [processTask, hres]
  | some t =>
    rcases hget : getAsanaTimeEntries env st.asanaCache t.integration_ext_id with ⟨ex, c2, evs2⟩
    by_cases hprov : t.integration_provider = "asana"
    · simp only [processTask, hres, hprov, if_true, hget]
      split
      · simp
      · split <;> simp [processEntries_togglCache]
    · simp [processTask, hres, hprov]

theorem processTask_ledger_mono (env : Env) (st : RunState) (g : Nat × List TimeEntry)
    (k : Nat) (h : (lfind st.ledger k).isSome) :
    (lfind (processTask env st g).ledger k).isSome := by
  rcases hres : resolveTask env st.togglTaskCache g.1 (headPid g.2) with ⟨ρ, c1, evs⟩
  cases ρ with
  | none => simpa [processTask, hres] using h
  | some t =>
    rcases hget : getAsanaTimeEntries env st.asanaCache t.integration_ext_id with ⟨ex, c2, evs2⟩
    by_cases hprov : t.integration_provider = "asana"
    · simp only [processTask, hres, hprov, if_true, hget]
      split
      · simpa using h
      · split <;> simpa using processEntries_ledger_mono env t.integration_ext_id ex _ _ k (by simpa using h)
    · simpa [processTask, hres, hprov] using h

theorem processTask_errors_char (env : Env) (st : RunState) (g : Nat × List TimeEntry) :
    (processTask env st g).errors = st.errors ∨
    ((processTask env st g).errors = st.errors ++ [g.1] ∧
      ((resolveTask env st.togglTaskCache g.1 (headPid g.2)).1 = none ∨
        ∃ e ∈ g.2, env.createFails e.id = true)) := by
  rcases hres : resolveTask env st.togglTaskCache g.1 (headPid g.2) with ⟨ρ, c1, evs⟩
  cases ρ with
  | none =>
    right
    constructor
    · simp [processTask, hres]
    · left
      rfl
  | some t =>
    rcases hget : getAsanaTimeEntries env st.asanaCache t.integration_ext_id with ⟨ex, c2, evs2⟩
    by_cases hprov : t.integration_provider = "asana"
    · simp only [processTask, hres, hprov, if_true, hget]
      split
      · left
        simp
      · split
        next hflag =>
          left
          simp [processEntries_errors]
        next hflag =>
          right
          refine ⟨by simp [processEntries_errors], Or.inr ?_⟩
          obtain ⟨e, hmem, hf⟩ := processEntries_false_fails env t.integration_ext_id ex
            (List.filter (fun e => (lfind st.ledger e.id).isNone) g.2)
            { ledger := st.ledger, togglTaskCache := c1, asanaCache := c2, synced := st.synced,
              skipped := st.skipped, alreadySynced := st.alreadySynced,
              trace := st.trace ++ evs ++ evs2, errors := st.errors }
            (by simpa using hflag)
          exact ⟨e, (List.mem_filter.mp hmem).1, hf⟩
    · left
      simp [processTask, hres, hprov]

theorem isSome_of_not_isNone (o : Option LedgerRecord) (h : ¬ o.isNone = true) : o.isSome := by
  cases o <;> simp_all

theorem countP_isPersist_processTask (env : Env) (st : RunState) (g : Nat × List TimeEntry) :
    (processTask env st g).trace.countP isPersist = st.trace.countP isPersist := by
  rcases hres : resolveTask env st.togglTaskCache g.1 (headPid g.2) with ⟨ρ, c1, evs⟩
  have hevs0 : evs.countP isPersist = 0 := by
    have h := resolveTask_evs env st.togglTaskCache g.1 (headPid g.2)
    rw [hres] at h
    rcases h with h | h <;> simp only at h <;> simp [h, isPersist]
  cases ρ with
  | none => simp [processTask, hres, List.countP_append, hevs0]
  | some t =>
    rcases hget : getAsanaTimeEntries env st.asanaCache t.integration_ext_id with ⟨ex, c2, evs2⟩
    have hevs2 : evs2.countP isPersist = 0 := by
      have h := getAsanaTimeEntries_evs env st.asanaCache t.integration_ext_id
      rw [hget] at h
      rcases h with h | h <;> simp only at h <;> simp [h, isPersist]
    by_cases hprov : t.integration_provider = "asana"
    · simp only [processTask, hres, hprov, if_true, hget]
      split
      · simp [List.countP_append, hevs0]
      · obtain ⟨d3, hd3, hall⟩ := processEntries_trace env t.integration_ext_id ex
          (List.filter (fun e => (lfind st.ledger e.id).isNone) g.2)
          { ledger := st.ledger, togglTaskCache := c1, asanaCache := c2, synced := st.synced,
            skipped := st.skipped, alreadySynced := st.alreadySynced,
            trace := st.trace ++ evs ++ evs2, errors := st.errors }
        have hd30 : d3.countP isPersist = 0 := by
          refine List.countP_eq_zero.mpr ?_
          intro ev hev
          obtain ⟨e, _, rfl⟩ := hall ev hev
          simp [isPersist]
        split <;> rw [hd3] <;> simp [List.countP_append, hevs0, hevs2, hd30]
    · simp [processTask, hres, hprov, List.countP_append, hevs0]

theorem createsFor_append (l1 l2 : List Ev) (k : Nat) :
    createsFor (l1 ++ l2) k = createsFor l1 k + createsFor l2 k :=
  List.countP_append _ _ _

theorem createsFor_processTask (env : Env) (st : RunState) (g : Nat × List TimeEntry)
    (k : Nat) (hk : (lfind st.ledger k).isSome) :
    createsFor (processTask env st g).trace k = createsFor st.trace k := by
  rcases hres : resolveTask env st.togglTaskCache g.1 (headPid g.2) with ⟨ρ, c1, evs⟩
  have hevs0 : createsFor evs k = 0 := by
    have h := resolveTask_evs env st.togglTaskCache g.1 (headPid g.2)
    rw [hres] at h
    rcases h with h | h <;> simp only at h <;> simp [h, createsFor]
  cases ρ with
  | none => simp [processTask, hres, createsFor_append, hevs0]
  | some t =>
    rcases hget : getAsanaTimeEntries env st.asanaCache t.integration_ext_id with ⟨ex, c2, evs2⟩
    have hevs2 : createsFor evs2 k = 0 := by
      have h := getAsanaTimeEntries_evs env st.asanaCache t.integration_ext_id
      rw [hget] at h
      rcases h with h | h <;> simp only at h <;> simp [h, createsFor]
    by_cases hprov : t.integration_provider = "asana"
    · simp only [processTask, hres, hprov, if_true, hget]
      split
      · simp [createsFor_append, hevs0]
      · obtain ⟨d3, hd3, hall⟩ := processEntries_trace env t.integration_ext_id ex
          (List.filter (fun e => (lfind st.ledger e.id).isNone) g.2)
          { ledger := st.ledger, togglTaskCache := c1, asanaCache := c2, synced := st.synced,
            skipped := st.skipped, alreadySynced := st.alreadySynced,
            trace := st.trace ++ evs ++ evs2, errors := st.errors }
        have hd30 : createsFor d3 k = 0 := by
          refine List.countP_eq_zero.mpr ?_
          intro ev hev
          obtain ⟨e, hmem, rfl⟩ := hall ev hev
          have hnone : (lfind st.ledger e.id).isNone = true := by
            simpa using (List.mem_filter.mp hmem).2
          have hne : e.id ≠ k := by
            intro h
            rw [h] at hnone
            rw [Option.isNone_iff_eq_none] at hnone
            rw [hnone] at hk
            cases hk
          simp [hne]
        split <;> rw [hd3] <;> simp [createsFor_append, hevs0, hevs2, hd30]
    · simp [processTask, hres, hprov, createsFor_append, hevs0]

theorem processTask_success_ledgers (env : Env) (st : RunState) (g : Nat × List TimeEntry)
    (t : TogglTask)
    (hres1 : (resolveTask env st.togglTaskCache g.1 (headPid g.2)).1 = some t)
    (hprov : t.integration_provider = "asana")
    (herr : (processTask env st g).errors = st.errors) :
    ∀ e ∈ g.2, (lfind (processTask env st g).ledger e.id).isSome := by
  rcases hres : resolveTask env st.togglTaskCache g.1 (headPid g.2) with ⟨ρ, c1, evs⟩
  rw [hres] at hres1
  simp only at hres1
  subst hres1
  rcases hget : getAsanaTimeEntries env st.asanaCache t.integration_ext_id with ⟨ex, c2, evs2⟩
  intro e he
  by_cases hemp : (List.filter (fun e => (lfind st.ledger e.id).isNone) g.2).isEmpty = true
  · have hnil : List.filter (fun e => (lfind st.ledger e.id).isNone) g.2 = [] :=
      List.isEmpty_iff.mp hemp
    have hnot : ¬ (lfind st.ledger e.id).isNone = true := by
      intro hn
      have : e ∈ List.filter (fun e => (lfind st.ledger e.id).isNone) g.2 :=
        List.mem_filter.mpr ⟨he, hn⟩
      rw [hnil] at this
      cases this
    have hsome := isSome_of_not_isNone _ hnot
    simp only [processTask, hres, hprov, if_true, hget, hemp]
    simpa using hsome
  · by_cases hflag : (processEntries env t.integration_ext_id ex
        { ledger := st.ledger, togglTaskCache := c1, asanaCache := c2, synced := st.synced,
          skipped := st.skipped, alreadySynced := st.alreadySynced,
          trace := st.trace ++ evs ++ evs2, errors := st.errors }
        (List.filter (fun e => (lfind st.ledger e.id).isNone) g.2)).2 = true
    · simp only [processTask, hres, hprov, if_true, hget, hemp, hflag, if_false]
      by_cases hn : (lfind st.ledger e.id).isNone = true
      · have hmem : e ∈ List.filter (fun e => (lfind st.ledger e.id).isNone) g.2 :=
          List.mem_filter.mpr ⟨he, hn⟩
        have := processEntries_true_ledgers env t.integration_ext_id ex
          (List.filter (fun e => (lfind st.ledger e.id).isNone) g.2)
          { ledger := st.ledger, togglTaskCache := c1, asanaCache := c2, synced := st.synced,
            skipped := st.skipped, alreadySynced := st.alreadySynced,
            trace := st.trace ++ evs ++ evs2, errors := st.errors }
          hflag e hmem
        simpa using this
      · have hsome := isSome_of_not_isNone _ hn
        have := processEntries_ledger_mono env t.integration_ext_id ex
          (List.filter (fun e => (lfind st.ledger e.id).isNone) g.2)
          { ledger := st.ledger, togglTaskCache := c1, asanaCache := c2, synced := st.synced,
            skipped := st.skipped, alreadySynced := st.alreadySynced,
            trace := st.trace ++ evs ++ evs2, errors := st.errors }
          e.id (by simpa using hsome)
        simpa using this
    · exfalso
      simp only [processTask, hres, hprov, if_true, hget, hemp, hflag, if_false] at herr
      rw [processEntries_errors] at herr
      exact append_singleton_ne st.errors g.1 herr

theorem processTask_none_errors (env : Env) (st : RunState) (g : Nat × List TimeEntry)
    (h : (resolveTask env st.togglTaskCache g.1 (headPid g.2)).1 = none) :
    (processTask env st g).errors = st.errors ++ [g.1] := by
  rcases hres : resolveTask env st.togglTaskCache g.1 (headPid g.2) with ⟨ρ, c1, evs⟩
  rw [hres] at h
  simp only at h
  subst h
  simp [processTask, hres]

theorem countP_isCreate_resolveEvs (env : Env) (cache : List (Nat × TogglTask)) (tid pid : Nat) :
    (resolveTask env cache tid pid).2.2.countP isCreate = 0 := by
  rcases resolveTask_evs env cache tid pid with h | h <;> simp [h, isCreate]

theorem countP_isCreate_processTask_skip (env : Env) (st : RunState) (g : Nat × List TimeEntry)
    (t : TogglTask)
    (hres1 : (resolveTask env st.togglTaskCache g.1 (headPid g.2)).1 = some t)
    (h : ¬ t.integration_provider = "asana" ∨
         (List.filter (fun e => (lfind st.ledger e.id).isNone) g.2).isEmpty = true) :
    (processTask env st g).trace.countP isCreate = st.trace.countP isCreate := by
  rcases hres : resolveTask env st.togglTaskCache g.1 (headPid g.2) with ⟨ρ, c1, evs⟩
  have hevs0 : evs.countP isCreate = 0 := by
    have := countP_isCreate_resolveEvs env st.togglTaskCache g.1 (headPid g.2)
    rw [hres] at this
    simpa using this
  rw [hres] at hres1
  simp only at hres1
  subst hres1
  cases h with
  | inl hprov => simp [processTask, hres, hprov, List.countP_append, hevs0]
  | inr hemp =>
    by_cases hprov : t.integration_provider = "asana"
    · simp [processTask, hres, hprov, hemp, List.countP_append, hevs0]
    · simp [processTask, hres, hprov, List.countP_append, hevs0]

/-! ### Run-loop (fold) lemmas -/

theorem foldl_ledger_mono (env : Env) :
    ∀ (gs : List (Nat × List TimeEntry)) (st : RunState) (k : Nat),
    (lfind st.ledger k).isSome →
    (lfind ((gs.foldl (processTask env) st)).ledger k).isSome := by
  intro gs
  induction gs with
  | nil => intro st k h; simpa using h
  | cons g rest ih =>
    intro st k h
    exact ih (processTask env st g) k (processTask_ledger_mono env st g k h)

theorem foldl_errors_ext (env : Env) :
    ∀ (gs : List (Nat × List TimeEntry)) (st : RunState),
    ∃ d, (gs.foldl (processTask env) st).errors = st.errors ++ d := by
  intro gs
  induction gs with
  | nil => intro st; exact ⟨[], by simp⟩
  | cons g rest ih =>
    intro st
    obtain ⟨d2, hd2⟩ := ih (processTask env st g)
    rcases processTask_errors_char env st g with h | ⟨h, _⟩
    · exact ⟨d2, by simpa [h] using hd2⟩
    · exact ⟨[g.1] ++ d2, by simp only [List.foldl_cons, hd2, h, List.append_assoc]⟩

theorem foldl_persist_count (env : Env) :
    ∀ (gs : List (Nat × List TimeEntry)) (st : RunState),
    (gs.foldl (processTask env) st).trace.countP isPersist = st.trace.countP isPersist := by
  intro gs
  induction gs with
  | nil => intro st; rfl
  | cons g rest ih =>
    intro st
    rw [List.foldl_cons, ih (processTask env st g), countP_isPersist_processTask]

theorem foldl_createsFor (env : Env) :
    ∀ (gs : List (Nat × List TimeEntry)) (st : RunState) (k : Nat),
    (lfind st.ledger k).isSome →
    createsFor (gs.foldl (processTask env) st).trace k = createsFor st.trace k := by
  intro gs
  induction gs with
  | nil => intro st k _; rfl
  | cons g rest ih =>
    intro st k h
    rw [List.foldl_cons, ih (processTask env st g) k (processTask_ledger_mono env st g k h),
      createsFor_processTask env st g k h]

theorem foldl_errors_nil_step (env : Env) (st : RunState) (g : Nat × List TimeEntry)
    (gs : List (Nat × List TimeEntry))
    (h : ((g :: gs).foldl (processTask env) st).errors = st.errors) :
    (processTask env st g).errors = st.errors ∧
    (gs.foldl (processTask env) (processTask env st g)).errors = (processTask env st g).errors := by
  obtain ⟨d2, hd2⟩ := foldl_errors_ext env gs (processTask env st g)
  rcases processTask_errors_char env st g with h1 | ⟨h1, _⟩
  · rw [List.foldl_cons] at h
    refine ⟨h1, ?_⟩
    rw [hd2] at h ⊢
    rw [h1] at h ⊢
    have : d2 = [] := by
      have h3 := h
      conv_rhs at h3 => rw [← List.append_nil st.errors]
      exact List.append_cancel_left h3
    simp [this]
  · exfalso
    rw [List.foldl_cons, hd2, h1] at h
    have := congrArg List.length h
    simp at this

theorem twoRun (env : Env) :
    ∀ (gs : List (Nat × List TimeEntry)) (st1 st2 : RunState),
    st1.togglTaskCache = st2.togglTaskCache →
    (gs.foldl (processTask env) st1).errors = st1.errors →
    (∀ k, (lfind (gs.foldl (processTask env) st1).ledger k).isSome →
      (lfind st2.ledger k).isSome) →
    (gs.foldl (processTask env) st2).trace.countP isCreate = st2.trace.countP isCreate := by
  intro gs
  induction gs with
  | nil => intro st1 st2 _ _ _; rfl
  | cons g rest ih =>
    intro st1 st2 hc herr hled
    obtain ⟨herr1, herr2⟩ := foldl_errors_nil_step env st1 g rest herr
    rcases hρ : (resolveTask env st1.togglTaskCache g.1 (headPid g.2)).1 with _ | t
    · exfalso
      rw [processTask_none_errors env st1 g hρ] at herr1
      have := congrArg List.length herr1
      simp at this
    · have hρ2 : (resolveTask env st2.togglTaskCache g.1 (headPid g.2)).1 = some t := by
        rw [← hc]
        exact hρ
      have hcache' : (processTask env st1 g).togglTaskCache = (processTask env st2 g).togglTaskCache := by
        rw [processTask_cache, processTask_cache, hc]
      have hled' : ∀ k, (lfind (rest.foldl (processTask env) (processTask env st1 g)).ledger k).isSome →
          (lfind (processTask env st2 g).ledger k).isSome := by
        intro k hk
        have : (lfind ((g :: rest).foldl (processTask env) st1).ledger k).isSome := by
          simpa using hk
        exact processTask_ledger_mono env st2 g k (hled k this)
      have hstep : (processTask env st2 g).trace.countP isCreate = st2.trace.countP isCreate := by
        by_cases hprov : t.integration_provider = "asana"
        · have hall : ∀ e ∈ g.2, (lfind st2.ledger e.id).isSome := by
            intro e he
            have h1 := processTask_success_ledgers env st1 g t hρ hprov herr1 e he
            have h2 := foldl_ledger_mono env rest (processTask env st1 g) e.id h1
            have h3 : (lfind ((g :: rest).foldl (processTask env) st1).ledger e.id).isSome := by
              simpa using h2
            exact hled e.id h3
          have hemp : (List.filter (fun e => (lfind st2.ledger e.id).isNone) g.2).isEmpty = true := by
            rw [List.isEmpty_iff]
            rw [List.filter_eq_nil_iff]
            intro e he
            have := hall e he
            simp [Option.isNone_iff_eq_none]
            rw [Option.isSome_iff_exists] at this
            obtain ⟨r, hr⟩ := this
            simp [hr]
          exact countP_isCreate_processTask_skip env st2 g t hρ2 (Or.inr hemp)
        · exact countP_isCreate_processTask_skip env st2 g t hρ2 (Or.inl hprov)
      calc ((g :: rest).foldl (processTask env) st2).trace.countP isCreate
          = (rest.foldl (processTask env) (processTask env st2 g)).trace.countP isCreate := by
            rw [List.foldl_cons]
        _ = (processTask env st2 g).trace.countP isCreate :=
            ih (processTask env st1 g) (processTask env st2 g) hcache' herr2 hled'
        _ = st2.trace.countP isCreate := hstep

/-! ### Further structural lemmas -/

theorem processEntries_ledger_other (env : Env) (gid : String) (ex : List AsanaEntry) :
    ∀ (es : List TimeEntry) (st : RunState) (k : Nat), (∀ e ∈ es, e.id ≠ k) →
    lfind (processEntries env gid ex st es).1.ledger k = lfind st.ledger k := by
  intro es
  induction es with
  | nil => intro st k _; rfl
  | cons e0 rest ih =>
    intro st k hne
    have hne0 : e0.id ≠ k := hne e0 (List.mem_cons_self _ _)
    have hstep : lfind (processEntry env gid ex st e0).1.ledger k = lfind st.ledger k := by
      unfold processEntry
      by_cases hm : matchesExisting ex (jsEnteredOn e0.start) (jsDurationMinutes e0)
      · simpa [hm] using lfind_linsert_ne st.ledger e0.id k _ hne0
      · by_cases hc : env.createFails e0.id
        · simp [hm, hc]
        · simpa [hm, hc] using lfind_linsert_ne st.ledger e0.id k _ hne0
    by_cases hp : (processEntry env gid ex st e0).2 = true
    · simp only [processEntries, hp, if_true]
      rw [ih (processEntry env gid ex st e0).1 k (fun e he => hne e (List.mem_cons_of_mem _ he)),
        hstep]
    · simp only [processEntries, hp, if_false]
      exact hstep

theorem processTask_resolve_error (env : Env) (st : RunState) (g : Nat × List TimeEntry)
    (m : String)
    (hlk : lookupNat st.togglTaskCache g.1 = none)
    (her : env.togglTaskOf (headPid g.2) g.1 = Except.error m) :
    processTask env st g =
      { st with trace := st.trace ++ [Ev.resolveCall g.1], errors := st.errors ++ [g.1] } := by
  simp [processTask, resolveTask, hlk, her]

theorem runSync_errors (env : Env) (led : Ledger) (es : List TimeEntry) :
    (runSync env led es).errors =
      ((groupByTask (es.filter hasTask)).foldl (processTask env) (initState led)).errors := by
  simp [runSync]

theorem runSync_ledger (env : Env) (led : Ledger) (es : List TimeEntry) :
    (runSync env led es).ledger =
      ((groupByTask (es.filter hasTask)).foldl (processTask env) (initState led)).ledger := by
  simp [runSync]

theorem runSync_trace (env : Env) (led : Ledger) (es : List TimeEntry) :
    (runSync env led es).trace =
      ((groupByTask (es.filter hasTask)).foldl (processTask env) (initState led)).trace ++
        [Ev.persistEv ((groupByTask (es.filter hasTask)).foldl (processTask env) (initState led)).ledger] := by
  simp [runSync]

theorem getLast_app (l : List Ev) (x : Ev) : (l ++ [x]).getLast? = some x := by
  rw [List.getLast?_append_of_ne_nil l (by simp)]
  rfl

theorem processTask_nonasana (env : Env) (st : RunState) (g : Nat × List TimeEntry)
    (t : TogglTask)
    (hres1 : (resolveTask env st.togglTaskCache g.1 (headPid g.2)).1 = some t)
    (hprov : ¬ t.integration_provider = "asana") :
    processTask env st g =
      { st with togglTaskCache := (resolveTask env st.togglTaskCache g.1 (headPid g.2)).2.1,
                trace := st.trace ++ (resolveTask env st.togglTaskCache g.1 (headPid g.2)).2.2,
                skipped := st.skipped + 1 } := by
  rcases hres : resolveTask env st.togglTaskCache g.1 (headPid g.2) with ⟨ρ, c1, evs⟩
  rw [hres] at hres1
  simp only at hres1
  subst hres1
  simp [processTask, hres, hprov]

theorem processTask_asana_new (env : Env) (st : RunState) (g : Nat × List TimeEntry)
    (t : TogglTask) (ex : List AsanaEntry)
    (hlk : lookupNat st.togglTaskCache g.1 = none)
    (hok : env.togglTaskOf (headPid g.2) g.1 = Except.ok t)
    (hprov : t.integration_provider = "asana")
    (hlk2 : lookupStr st.asanaCache t.integration_ext_id = none)
    (hfetch : env.asanaEntriesOf t.integration_ext_id = Except.ok ex)
    (hnew : ∀ e ∈ g.2, lfind st.ledger e.id = none)
    (hne : g.2 ≠ [])
    (hcf : ∀ e ∈ g.2, env.createFails e.id = false) :
    (processTask env st g).errors = st.errors ∧
    (processTask env st g).synced = st.synced + 1 ∧
    (∀ e ∈ g.2, (lfind (processTask env st g).ledger e.id).isSome) ∧
    (∀ k, (∀ e ∈ g.2, e.id ≠ k) → lfind (processTask env st g).ledger k = lfind st.ledger k) ∧
    (processTask env st g).trace =
      st.trace ++ [Ev.resolveCall g.1] ++ [Ev.dupFetchCall t.integration_ext_id] ++
        g.2.filterMap (createEventOf t.integration_ext_id ex) := by
  have hres : resolveTask env st.togglTaskCache g.1 (headPid g.2) =
      (some t, st.togglTaskCache ++ [(g.1, t)], [Ev.resolveCall g.1]) := by
    simp [resolveTask, hlk, hok]
  have hget : getAsanaTimeEntries env st.asanaCache t.integration_ext_id =
      (ex, st.asanaCache ++ [(t.integration_ext_id, ex)], [Ev.dupFetchCall t.integration_ext_id]) := by
    simp [getAsanaTimeEntries, hlk2, hfetch]
  have hfilter : List.filter (fun e => (lfind st.ledger e.id).isNone) g.2 = g.2 := by
    rw [List.filter_eq_self]
    intro e he
    rw [hnew e he]
    rfl
  obtain ⟨htr, hfl⟩ := processEntries_trace_eq env t.integration_ext_id ex g.2
    { ledger := st.ledger, togglTaskCache := st.togglTaskCache ++ [(g.1, t)],
      asanaCache := st.asanaCache ++ [(t.integration_ext_id, ex)], synced := st.synced,
      skipped := st.skipped, alreadySynced := st.alreadySynced,
      trace := st.trace ++ [Ev.resolveCall g.1, Ev.dupFetchCall t.integration_ext_id],
      errors := st.errors } hcf
  refine ⟨?_, ?_, ?_, ?_, ?_⟩
  · simp [processTask, hres, hget, hfilter, hne, hprov, hfl, processEntries_errors]
  · simp [processTask, hres, hget, hfilter, hne, hprov, hfl, processEntries_synced]
  · intro e he
    have := processEntries_true_ledgers env t.integration_ext_id ex g.2
      { ledger := st.ledger, togglTaskCache := st.togglTaskCache ++ [(g.1, t)],
        asanaCache := st.asanaCache ++ [(t.integration_ext_id, ex)], synced := st.synced,
        skipped := st.skipped, alreadySynced := st.alreadySynced,
        trace := st.trace ++ [Ev.resolveCall g.1, Ev.dupFetchCall t.integration_ext_id],
        errors := st.errors } hfl e he
    simp [processTask, hres, hget, hfilter, hne, hprov, hfl]
    simpa using this
  · intro k hk
    have := processEntries_ledger_other env t.integration_ext_id ex g.2
      { ledger := st.ledger, togglTaskCache := st.togglTaskCache ++ [(g.1, t)],
        asanaCache := st.asanaCache ++ [(t.integration_ext_id, ex)], synced := st.synced,
        skipped := st.skipped, alreadySynced := st.alreadySynced,
        trace := st.trace ++ [Ev.resolveCall g.1, Ev.dupFetchCall t.integration_ext_id],
        errors := st.errors } k hk
    simp [processTask, hres, hget, hfilter, hne, hprov, hfl]
    simpa using this
  · simp [processTask, hres, hget, hfilter, hne, hprov, hfl, htr]

theorem countCreatesKey_filterMap (gid : String) (ex : List AsanaEntry)
    (dm : Option Nat) (don : String) (hnm : matchesExisting ex don dm = false) :
    ∀ es : List TimeEntry,
    countCreatesKey (es.filterMap (createEventOf gid ex)) gid dm don =
      es.countP (fun e => decide (jsDurationMinutes e = dm) && decide (jsEnteredOn e.start = don)) := by
  intro es
  induction es with
  | nil => rfl
  | cons e0 rest ih =>
    by_cases hm : matchesExisting ex (jsEnteredOn e0.start) (jsDurationMinutes e0)
    · have hkey : ¬ (jsDurationMinutes e0 = dm ∧ jsEnteredOn e0.start = don) := by
        rintro ⟨h1, h2⟩
        rw [h1, h2] at hm
        rw [hm] at hnm
        cases hnm
      rw [List.filterMap_cons]
      simp only [createEventOf, hm, if_true]
      rw [ih, List.countP_cons]
      have : (decide (jsDurationMinutes e0 = dm) && decide (jsEnteredOn e0.start = don)) = false := by
        rcases Decidable.em (jsDurationMinutes e0 = dm) with h1 | h1 <;>
          rcases Decidable.em (jsEnteredOn e0.start = don) with h2 | h2 <;>
          simp [h1, h2]
        exact absurd ⟨h1, h2⟩ hkey
      rw [this]
      rfl
    · rw [List.filterMap_cons]
      simp only [createEventOf, hm, Bool.false_eq_true, if_false]
      rw [countCreatesKey, List.countP_cons, ← countCreatesKey, ih, List.countP_cons]
      congr 1
      simp only
      rcases Decidable.em (jsDurationMinutes e0 = dm) with h1 | h1 <;>
        rcases Decidable.em (jsEnteredOn e0.start = don) with h2 | h2 <;>
        simp [h1, h2]

/-! ### Claim C1 -/

/-- C1 counterexample: with a creation call that fails persistently (the
remote rejects that POST on every run), the entry is left unledgered by
the first run, so a second run over the persisted ledger issues the
creation request again: the second run issues one creation call, not
zero.  This refutes the unconditional second-run clause of the claim. -/
theorem C1_counterexample :
    (runSync fixEnvCreateFail
      (runSync fixEnvCreateFail [] [fixEntry]).ledger [fixEntry]).trace.countP isCreate ≠ 0 := by
  decide

/-- C1 amended: if the ledger loaded at the start of a run contains a
record keyed by an entry id, the run never issues a creation request for
that entry; and a second run with the same entries over the ledger
persisted by the first run issues zero creation calls provided the first
run recorded no per-task errors. -/
theorem C1_theorem :
    (∀ (env : Env) (led : Ledger) (es : List TimeEntry) (k : Nat),
      (lfind led k).isSome → createsFor (runSync env led es).trace k = 0) ∧
    (∀ (env : Env) (led : Ledger) (es : List TimeEntry),
      (runSync env led es).errors = [] →
      (runSync env (runSync env led es).ledger es).trace.countP isCreate = 0) := by
  constructor
  · intro env led es k hk
    rw [runSync_trace, createsFor_append]
    have h0 : (lfind (initState led).ledger k).isSome := by simpa [initState] using hk
    have h1 := foldl_createsFor env (groupByTask (es.filter hasTask)) (initState led) k h0
    rw [h1]
    simp [initState, createsFor]
  · intro env led es herr
    have herr2 : ((groupByTask (es.filter hasTask)).foldl (processTask env) (initState led)).errors
        = (initState led).errors := by
      rw [← runSync_errors, herr]
      rfl
    have hled : ∀ k,
        (lfind ((groupByTask (es.filter hasTask)).foldl (processTask env) (initState led)).ledger k).isSome →
        (lfind (initState (runSync env led es).ledger).ledger k).isSome := by
      intro k hk
      simpa [initState, runSync_ledger] using hk
    have h2r := twoRun env (groupByTask (es.filter hasTask)) (initState led)
      (initState (runSync env led es).ledger) rfl herr2 hled
    rw [runSync_trace, List.countP_append, h2r]
    simp [initState, isCreate]

/-- C1 witness: a ledgered entry receives no creation request, and an
error-free first run makes the second run issue zero creation calls. -/
theorem C1_witness :
    ((lfind [(11, fixRecord)] 11).isSome ∧
      createsFor (runSync fixEnvOk [(11, fixRecord)] [fixEntry]).trace 11 = 0) ∧
    ((runSync fixEnvOk [] [fixEntry]).errors = [] ∧
      (runSync fixEnvOk (runSync fixEnvOk [] [fixEntry]).ledger [fixEntry]).trace.countP isCreate = 0) :=
  ⟨⟨by decide, C1_theorem.1 fixEnvOk [(11, fixRecord)] [fixEntry] 11 (by decide)⟩,
   ⟨by decide, C1_theorem.2 fixEnvOk [] [fixEntry] (by decide)⟩⟩

/-! ### Claim C2 -/

/-- C2 counterexample: the code computes durationMinutes with the JS
Math.round, which rounds halves up; an entry of 30 seconds therefore
yields 1 minute, not the 0 the claim asserts. -/
theorem C2_counterexample :
    jsDurationMinutes fixEntry30 = some 1 ∧ ¬ jsDurationMinutes fixEntry30 = some 0 := by
  decide

/-- C2 amended: durationMinutes is the round-half-up of
durationSeconds / 60, characterized by 60 m being within 30 of the
seconds value from below; 89 seconds yield 1 minute and 30 seconds also
yield 1 minute (JS Math.round rounds the half 0.5 up to 1). -/
theorem C2_theorem :
    (∀ (e : TimeEntry) (s : Nat), jsRawDuration e = some s →
      jsDurationMinutes e = some ((s + 30) / 60) ∧
      60 * ((s + 30) / 60) ≤ s + 30 ∧ s + 30 < 60 * ((s + 30) / 60) + 60) ∧
    jsDurationMinutes fixEntry89 = some 1 ∧ jsDurationMinutes fixEntry30 = some 1 := by
  refine ⟨?_, by decide, by decide⟩
  intro e s h
  refine ⟨by simp [jsDurationMinutes, h], ?_, ?_⟩ <;> omega

/-- C2 witness: evaluation of the rounding characterization at the
89-second fixture entry. -/
theorem C2_witness :
    jsRawDuration fixEntry89 = some 89 ∧
    (jsDurationMinutes fixEntry89 = some ((89 + 30) / 60) ∧
      60 * ((89 + 30) / 60) ≤ 89 + 30 ∧ 89 + 30 < 60 * ((89 + 30) / 60) + 60) :=
  ⟨by decide, C2_theorem.1 fixEntry89 89 (by decide)⟩

/-! ### Claim C3 -/

/-- C3 counterexample: a record with seconds present but zero and
duration 1800 yields 30 minutes (JS falsy zero falls through to
duration), contradicting strict preference of seconds; and a record with
neither field present is not rejected: the run still ledgers it and
issues one creation call (with a non-numeric duration). -/
theorem C3_counterexample :
    jsDurationMinutes fixEntryBoth0 = some 30 ∧
    (lfind (runSync fixEnvOk [] [fixEntryNeither]).ledger 15).isSome ∧
    (runSync fixEnvOk [] [fixEntryNeither]).trace.countP isCreate = 1 := by
  decide

/-- C3 amended: the adapter prefers seconds only when it is present and
nonzero, otherwise falls back to duration; when neither field yields a
value the computed duration is non-numeric (none), such an entry can
never match an existing remote entry, and the per-entry loop still
issues a creation call for it with the non-numeric duration instead of
rejecting the record. -/
theorem C3_theorem :
    (∀ (e : TimeEntry) (s : Nat), e.seconds = some s → s ≠ 0 → jsRawDuration e = some s) ∧
    (∀ e : TimeEntry, e.seconds = none ∨ e.seconds = some 0 → jsRawDuration e = e.duration) ∧
    (∀ (e : TimeEntry) (existing : List AsanaEntry), jsRawDuration e = none →
      matchesExisting existing (jsEnteredOn e.start) (jsDurationMinutes e) = false) ∧
    (∀ (env : Env) (gid : String) (existing : List AsanaEntry) (st : RunState) (e : TimeEntry),
      jsRawDuration e = none →
      (processEntry env gid existing st e).1.trace =
        st.trace ++ [Ev.createCall e.id gid none (jsEnteredOn e.start)]) := by
  refine ⟨?_, ?_, ?_, ?_⟩
  · intro e s h1 h2
    simp [jsRawDuration, h1, h2]
  · intro e h
    rcases h with h | h <;> simp [jsRawDuration, h]
  · intro e existing h
    simp [matchesExisting, jsDurationMinutes, h]
  · intro env gid existing st e h
    have hdm : jsDurationMinutes e = none := by simp [jsDurationMinutes, h]
    have hm : matchesExisting existing (jsEnteredOn e.start) (jsDurationMinutes e) = false := by
      simp [matchesExisting, hdm]
    rw [hdm] at hm
    unfold processEntry
    by_cases hc : env.createFails e.id <;> simp [hm, hdm, hc]

/-- C3 witness: the preference rule at a nonzero seconds value, and the
not-rejected behavior at the entry with neither field. -/
theorem C3_witness :
    (fixEntry.seconds = some 3600 ∧ jsRawDuration fixEntry = some 3600) ∧
    (jsRawDuration fixEntryNeither = none ∧
      (processEntry fixEnvOk "g" [] (initState []) fixEntryNeither).1.trace =
        (initState []).trace ++ [Ev.createCall 15 "g" none (jsEnteredOn fixEntryNeither.start)]) :=
  ⟨⟨by decide, C3_theorem.1 fixEntry 3600 (by decide) (by decide)⟩,
   ⟨by decide, C3_theorem.2.2.2 fixEnvOk "g" [] (initState []) fixEntryNeither (by decide)⟩⟩

/-! ### Claim C4 -/

/-- C4: an entry is suppressed as a duplicate exactly when some fetched
remote entry has the same entered-on date and the same rounded duration
(exact equality, no tolerance); when suppressed, the per-entry loop
issues no creation call and writes a ledger record with already_existed
set to true. -/
theorem C4_theorem (env : Env) (gid : String) (existing : List AsanaEntry)
    (st : RunState) (e : TimeEntry) :
    (matchesExisting existing (jsEnteredOn e.start) (jsDurationMinutes e) = true ↔
      ∃ r ∈ existing, r.entered_on = jsEnteredOn e.start ∧
        jsDurationMinutes e = some r.duration_minutes) ∧
    (matchesExisting existing (jsEnteredOn e.start) (jsDurationMinutes e) = true →
      (processEntry env gid existing st e).1.trace = st.trace ∧
      (processEntry env gid existing st e).2 = true ∧
      lfind (processEntry env gid existing st e).1.ledger e.id =
        some { synced_at := env.now, asana_task_gid := gid,
               duration_minutes := jsDurationMinutes e, entered_on := jsEnteredOn e.start,
               already_existed := true, user_id := none }) := by
  constructor
  · cases hdm : jsDurationMinutes e with
    | none => simp [matchesExisting, hdm]
    | some m =>
      simp only [matchesExisting, hdm, List.any_eq_true, Bool.and_eq_true, decide_eq_true_eq]
      constructor
      · rintro ⟨r, hr, h1, h2⟩
        exact ⟨r, hr, h1, by rw [h2]⟩
      · rintro ⟨r, hr, h1, h2⟩
        exact ⟨r, hr, h1, by injection h2 with h3; rw [h3]⟩
  · intro hm
    unfold processEntry
    simp [hm, lfind_linsert_self]

/-- C4 witness: the one-hour fixture entry against a remote entry of 60
minutes on the same date is suppressed: no creation call, ledger record
with already_existed true. -/
theorem C4_witness :
    matchesExisting fixExisting (jsEnteredOn fixEntry.start) (jsDurationMinutes fixEntry) = true ∧
    ((processEntry fixEnvDup "g" fixExisting (initState []) fixEntry).1.trace = (initState []).trace ∧
     (processEntry fixEnvDup "g" fixExisting (initState []) fixEntry).2 = true ∧
     lfind (processEntry fixEnvDup "g" fixExisting (initState []) fixEntry).1.ledger fixEntry.id =
       some { synced_at := fixEnvDup.now, asana_task_gid := "g",
              duration_minutes := jsDurationMinutes fixEntry,
              entered_on := jsEnteredOn fixEntry.start, already_existed := true, user_id := none }) :=
  ⟨by decide, (C4_theorem fixEnvDup "g" fixExisting (initState []) fixEntry).2 (by decide)⟩

/-! ### Claim C5 -/

/-- C5: per-task errors are caught at the task boundary.  First part:
when the first task group fails to resolve and the second resolves to an
actionable Asana task with fresh entries, the run still creates and
ledgers every entry of the second group, the failed group contributes
exactly its task id to the error log, and none of its entries receive a
ledger record.  Second part: a failed creation call aborts the per-entry
loop of its task with the ledger unchanged from that point on — the
failing entry and every entry after it receive no ledger record. -/
theorem C5_theorem :
    (∀ (env : Env) (led : Ledger) (es : List TimeEntry)
      (gA gB : Nat × List TimeEntry) (tB : TogglTask) (exB : List AsanaEntry) (msgA : String),
      groupByTask (es.filter hasTask) = [gA, gB] →
      env.togglTaskOf (headPid gA.2) gA.1 = Except.error msgA →
      env.togglTaskOf (headPid gB.2) gB.1 = Except.ok tB →
      tB.integration_provider = "asana" →
      env.asanaEntriesOf tB.integration_ext_id = Except.ok exB →
      (∀ e ∈ gB.2, lfind led e.id = none) →
      gB.2 ≠ [] →
      (∀ e ∈ gB.2, env.createFails e.id = false) →
      (∀ e ∈ gA.2, lfind led e.id = none) →
      (∀ e ∈ gA.2, ∀ e2 ∈ gB.2, e.id ≠ e2.id) →
      (runSync env led es).errors = [gA.1] ∧
      (∀ e ∈ gB.2, (lfind (runSync env led es).ledger e.id).isSome) ∧
      (∀ e ∈ gA.2, lfind (runSync env led es).ledger e.id = none)) ∧
    (∀ (env : Env) (gid : String) (ex : List AsanaEntry) (st : RunState)
      (efail : TimeEntry) (restA : List TimeEntry),
      matchesExisting ex (jsEnteredOn efail.start) (jsDurationMinutes efail) = false →
      env.createFails efail.id = true →
      (processEntries env gid ex st (efail :: restA)).1.ledger = st.ledger ∧
      (processEntries env gid ex st (efail :: restA)).2 = false) := by
  constructor
  · intro env led es gA gB tB exB msgA hgroups hA hB hprovB hfetchB hnewB hneB hcfB hnewA hidsA
    have hR1 := processTask_resolve_error env (initState led) gA msgA rfl hA
    obtain ⟨hErr2, hSync2, hLedB, hLedOther, hTr2⟩ :=
      processTask_asana_new env (processTask env (initState led) gA) gB tB exB
        (by rw [hR1]; simp [initState, lookupNat]) hB hprovB
        (by rw [hR1]; simp [initState, lookupStr]) hfetchB
        (by
          intro e he
          rw [hR1]
          simp only [initState]
          exact hnewB e he)
        hneB hcfB
    have hfold : (groupByTask (es.filter hasTask)).foldl (processTask env) (initState led) =
        processTask env (processTask env (initState led) gA) gB := by
      rw [hgroups]
      rfl
    refine ⟨?_, ?_, ?_⟩
    · rw [runSync_errors, hfold, hErr2, hR1]
      simp [initState]
    · intro e he
      rw [runSync_ledger, hfold]
      exact hLedB e he
    · intro e he
      rw [runSync_ledger, hfold,
        hLedOther e.id (fun e2 he2 => (hidsA e he e2 he2).symm), hR1]
      simp only [initState]
      exact hnewA e he
  · intro env gid ex st efail restA hnm hcf
    have hp : processEntry env gid ex st efail =
        ({ st with trace := st.trace ++
          [Ev.createCall efail.id gid (jsDurationMinutes efail) (jsEnteredOn efail.start)] }, false) := by
      unfold processEntry
      simp [hnm, hcf]
    simp [processEntries, hp]

/-- C5 witness: task 5 fails to resolve, task 6 resolves to an Asana
task; the entry of task 6 is ledgered, the entry of task 5 is not, and
the error log holds exactly task 5. -/
theorem C5_witness :
    (runSync fixEnvC5 [] [fixEntryA, fixEntryB]).errors = [5] ∧
    (∀ e ∈ [fixEntryB], (lfind (runSync fixEnvC5 [] [fixEntryA, fixEntryB]).ledger e.id).isSome) ∧
    (∀ e ∈ [fixEntryA], lfind (runSync fixEnvC5 [] [fixEntryA, fixEntryB]).ledger e.id = none) :=
  C5_theorem.1 fixEnvC5 [] [fixEntryA, fixEntryB] (5, [fixEntryA]) (6, [fixEntryB])
    fixTask [] "Toggl API error: 404"
    (by decide) rfl rfl (by decide) rfl
    (by decide) (by decide) (by decide) (by decide) (by decide)

/-! ### Claim C6 -/

/-- C6: every run persists the ledger exactly once, and the persist is
the last observable event of the run, after all task groups have been
processed. -/
theorem C6_theorem (env : Env) (led : Ledger) (es : List TimeEntry) :
    (runSync env led es).trace.countP isPersist = 1 ∧
    (runSync env led es).trace.getLast? = some (Ev.persistEv (runSync env led es).ledger) := by
  constructor
  · rw [runSync_trace, List.countP_append,
      foldl_persist_count env (groupByTask (es.filter hasTask)) (initState led)]
    simp [initState, isPersist]
  · rw [runSync_trace, getLast_app, runSync_ledger]

/-! ### Claim C7 -/

/-- C7: a failed duplicate-detection fetch is recovered locally: the
detector returns the empty list and caches it, and a task-level error
can only stem from a resolution failure or a failed creation call, never
from the duplicate-detection fetch. -/
theorem C7_theorem :
    (∀ (env : Env) (cache : List (String × List AsanaEntry)) (gid msg : String),
      lookupStr cache gid = none → env.asanaEntriesOf gid = Except.error msg →
      (getAsanaTimeEntries env cache gid).1 = [] ∧
      (getAsanaTimeEntries env cache gid).2.1 = cache ++ [(gid, [])]) ∧
    (∀ (env : Env) (st : RunState) (g : Nat × List TimeEntry),
      (processTask env st g).errors ≠ st.errors →
      (resolveTask env st.togglTaskCache g.1 (headPid g.2)).1 = none ∨
        ∃ e ∈ g.2, env.createFails e.id = true) := by
  constructor
  · intro env cache gid msg hlk hfail
    simp [getAsanaTimeEntries, hlk, hfail]
  · intro env st g hne
    rcases processTask_errors_char env st g with h | ⟨_, h⟩
    · exact absurd h hne
    · exact h

/-- C7 witness: a failing fetch on an uncached task gid yields the empty
list and caches the empty list. -/
theorem C7_witness :
    (getAsanaTimeEntries fixEnvAsanaFail [] "g7").1 = [] ∧
    (getAsanaTimeEntries fixEnvAsanaFail [] "g7").2.1 = [] ++ [("g7", [])] :=
  C7_theorem.1 fixEnvAsanaFail [] "g7" "Asana API error: 500" rfl rfl

/-! ### Claim C8 -/

/-- C8: a task group whose resolved provider is not asana is skipped:
the ledger is unchanged, no error is recorded, only the skipped counter
is incremented, and the only event that can be emitted while processing
it is the resolution call itself (no duplicate-detection query, no
creation call). -/
theorem C8_theorem (env : Env) (st : RunState) (g : Nat × List TimeEntry) (t : TogglTask)
    (hres1 : (resolveTask env st.togglTaskCache g.1 (headPid g.2)).1 = some t)
    (hprov : ¬ t.integration_provider = "asana") :
    (processTask env st g).ledger = st.ledger ∧
    (processTask env st g).errors = st.errors ∧
    (processTask env st g).skipped = st.skipped + 1 ∧
    (processTask env st g).synced = st.synced ∧
    (processTask env st g).alreadySynced = st.alreadySynced ∧
    ∃ d, (processTask env st g).trace = st.trace ++ d ∧
      ∀ ev ∈ d, ∃ tid, ev = Ev.resolveCall tid := by
  rw [processTask_nonasana env st g t hres1 hprov]
  refine ⟨rfl, rfl, rfl, rfl, rfl, (resolveTask env st.togglTaskCache g.1 (headPid g.2)).2.2, rfl, ?_⟩
  intro ev hev
  rcases resolveTask_evs env st.togglTaskCache g.1 (headPid g.2) with h | h
  · rw [h] at hev
    cases hev
  · rw [h] at hev
    rcases List.mem_singleton.mp hev with rfl
    exact ⟨g.1, rfl⟩

/-- C8 witness: a task resolving to a jira-linked task is skipped with
no ledger change and only the skipped counter incremented. -/
theorem C8_witness :
    (processTask fixEnvJira (initState []) (5, [fixEntry])).ledger = (initState []).ledger ∧
    (processTask fixEnvJira (initState []) (5, [fixEntry])).errors = (initState []).errors ∧
    (processTask fixEnvJira (initState []) (5, [fixEntry])).skipped = (initState []).skipped + 1 ∧
    (processTask fixEnvJira (initState []) (5, [fixEntry])).synced = (initState []).synced ∧
    (processTask fixEnvJira (initState []) (5, [fixEntry])).alreadySynced = (initState []).alreadySynced ∧
    ∃ d, (processTask fixEnvJira (initState []) (5, [fixEntry])).trace = (initState []).trace ++ d ∧
      ∀ ev ∈ d, ∃ tid, ev = Ev.resolveCall tid :=
  C8_theorem fixEnvJira (initState []) (5, [fixEntry]) fixTaskJira rfl (by decide)

/-! ### Claim C9 -/

/-- C9: loading the sync state yields the empty mapping on any read
failure or parse failure, not only on an absent file; the run over such
a load is identical to a run over the empty ledger, so previously synced
entries can be re-submitted. -/
theorem C9_theorem (readRes : Except String String) (parse : String → Except String Ledger)
    (h : (∃ m, readRes = Except.error m) ∨
         (∃ s m, readRes = Except.ok s ∧ parse s = Except.error m)) :
    loadSyncState readRes parse = [] ∧
    ∀ (env : Env) (es : List TimeEntry),
      runSync env (loadSyncState readRes parse) es = runSync env [] es := by
  have h0 : loadSyncState readRes parse = [] := by
    rcases h with ⟨m, rfl⟩ | ⟨s, m, rfl, hp⟩
    · rfl
    · simp [loadSyncState, hp]
  exact ⟨h0, fun env es => by rw [h0]⟩

/-- C9 witness: a read error yields the empty mapping. -/
theorem C9_witness :
    loadSyncState (Except.error "ENOENT") (fun _ => Except.ok []) = [] :=
  (C9_theorem (Except.error "ENOENT") (fun _ => Except.ok [])
    (Or.inl ⟨"ENOENT", rfl⟩)).1

/-! ### Claim C10 -/

/-- C10: when all creation calls succeed, the per-entry loop compares
each new entry only against the fixed list of remote entries fetched
before the loop, emitting exactly one creation event per non-duplicate
entry in input order; entries created during the loop are never added to
that list, so the number of creation calls with a given date and rounded
duration equals the number of new entries carrying that key whenever no
remote entry matches it — two identical new entries both receive
creation calls. -/
theorem C10_theorem (env : Env) (gid : String) (existing : List AsanaEntry)
    (st : RunState) (es : List TimeEntry)
    (hcf : ∀ e ∈ es, env.createFails e.id = false) :
    (processEntries env gid existing st es).1.trace =
      st.trace ++ es.filterMap (createEventOf gid existing) ∧
    (processEntries env gid existing st es).2 = true ∧
    (∀ (dm : Option Nat) (don : String), matchesExisting existing don dm = false →
      countCreatesKey (es.filterMap (createEventOf gid existing)) gid dm don =
        es.countP (fun e => decide (jsDurationMinutes e = dm) && decide (jsEnteredOn e.start = don))) := by
  obtain ⟨h1, h2⟩ := processEntries_trace_eq env gid existing es st hcf
  exact ⟨h1, h2, fun dm don hnm => countCreatesKey_filterMap gid existing dm don hnm es⟩

/-- C10 witness: two entries with the same date and the same rounded
duration, no matching remote entry: both receive creation calls. -/
theorem C10_witness :
    countCreatesKey ([fixEntry, fixEntry16].filterMap (createEventOf "g" [])) "g"
      (some 60) "2026-02-01" = 2 := by
  have h := (C10_theorem fixEnvOk "g" [] (initState []) [fixEntry, fixEntry16]
    (by decide)).2.2 (some 60) "2026-02-01" (by decide)
  rw [h]
  decide
